import Mathlib

/-!
Shallow embedding of the OpenHands runtime proxy core:
`openhands/runtime/proxy/{models,registry,balancer,server}.py`.

Python dictionaries are modelled as association lists with string keys
(insert replaces in place, erase removes the entry); timestamps are integer
seconds and float load ratios are exact rationals; operations that can raise
inside a `try` block are modelled by matching on the failing lookup exactly
where the exception would be thrown.
-/

set_option linter.unusedVariables false

/-- `models.ServerStatus`: the four server states. -/
inductive ServerStatus where
  | online
  | offline
  | busy
  | maintenance
deriving DecidableEq, Repr

/-- `models.ServerCapacity`: capacity telemetry carried by a server.
Float usages are rationals; the `last_updated` timestamp is in seconds as an
integer (only differences and comparisons of timestamps occur). -/
structure ServerCapacity where
  max_sessions : Int
  current_sessions : Int
  cpu_usage : ℚ
  memory_usage : ℚ
  last_updated : Int
deriving DecidableEq, Repr

/-- `models.RuntimeServer`. -/
structure RuntimeServer where
  server_id : String
  host : String
  port : Int
  status : ServerStatus
  capacity : ServerCapacity
  metadata : List (String × String)
deriving DecidableEq, Repr

/-- `models.SessionInfo`. -/
structure SessionInfo where
  session_id : String
  server_id : String
  created_at : Int
  last_active : Int
  metadata : List (String × String)
deriving DecidableEq, Repr

/-- Lookup in a string-keyed dictionary (first matching entry). -/
def dictLookup {β : Type} (l : List (String × β)) (k : String) : Option β :=
  match l with
  | [] => none
  | (k', v) :: t => if k' = k then some v else dictLookup t k

/-- Insert-or-replace in a string-keyed dictionary; an existing key keeps its
position (Python dict update semantics), a new key is appended. -/
def dictInsert {β : Type} (l : List (String × β)) (k : String) (v : β) :
    List (String × β) :=
  match l with
  | [] => [(k, v)]
  | (k', v') :: t => if k' = k then (k, v) :: t else (k', v') :: dictInsert t k v

/-- Remove the entry with the given key (Python `del d[k]` / `d.pop(k)`). -/
def dictErase {β : Type} (l : List (String × β)) (k : String) :
    List (String × β) :=
  match l with
  | [] => []
  | (k', v') :: t => if k' = k then t else (k', v') :: dictErase t k

/-- A dictionary's keys are pairwise distinct (always true of a Python dict). -/
def NodupKeys {β : Type} (l : List (String × β)) : Prop :=
  (l.map Prod.fst).Nodup

instance {β : Type} (l : List (String × β)) : Decidable (NodupKeys l) := by
  unfold NodupKeys; infer_instance

instance {ε α : Type} [DecidableEq ε] [DecidableEq α] :
    DecidableEq (Except ε α) := fun x y =>
  match x, y with
  | .error e, .error f =>
    if h : e = f then isTrue (congrArg Except.error h)
    else isFalse fun hc => h (Except.error.inj hc)
  | .error _, .ok _ => isFalse fun hc => Except.noConfusion hc
  | .ok _, .error _ => isFalse fun hc => Except.noConfusion hc
  | .ok a, .ok b =>
    if h : a = b then isTrue (congrArg Except.ok h)
    else isFalse fun hc => h (Except.ok.inj hc)

/-- `registry.ServerRegistry`: the three collections `_servers`, `_sessions`
and `_server_sessions`. -/
structure ServerRegistry where
  servers : List (String × RuntimeServer)
  sessions : List (String × SessionInfo)
  server_sessions : List (String × List String)
deriving DecidableEq, Repr

/-- `ServerRegistry.register_server`: stores the server under its id and
assigns a fresh empty list to `_server_sessions[server_id]` (unconditionally,
also on re-registration). Plain dict assignments cannot raise, so the
`except` branch is unreachable and the call always returns `True`. -/
def register_server (reg : ServerRegistry) (server : RuntimeServer) :
    ServerRegistry × Bool :=
  ({ reg with
      servers := dictInsert reg.servers server.server_id server,
      server_sessions := dictInsert reg.server_sessions server.server_id [] },
   true)

/-- The loop body of `unregister_server`: `if session_id in self._sessions:
del self._sessions[session_id]`, folded over the popped index list. -/
def eraseAll {β : Type} (m : List (String × β)) (ids : List String) :
    List (String × β) :=
  ids.foldl (fun m sid => if (dictLookup m sid).isSome then dictErase m sid else m) m

/-- `ServerRegistry.unregister_server`: if the id is present, deletes the
server, pops its index list, and deletes each indexed session that is present
in `_sessions`; otherwise returns `False` without changes. -/
def unregister_server (reg : ServerRegistry) (server_id : String) :
    ServerRegistry × Bool :=
  match dictLookup reg.servers server_id with
  | none => (reg, false)
  | some _ =>
    ({ servers := dictErase reg.servers server_id,
       server_sessions := dictErase reg.server_sessions server_id,
       sessions := eraseAll reg.sessions
         ((dictLookup reg.server_sessions server_id).getD []) },
     true)

/-- `ServerRegistry.update_server_status`: sets the status of an existing
server, returns `False` when the id is unknown. -/
def update_server_status (reg : ServerRegistry) (server_id : String)
    (status : ServerStatus) : ServerRegistry × Bool :=
  match dictLookup reg.servers server_id with
  | none => (reg, false)
  | some s =>
    ({ reg with
        servers := dictInsert reg.servers server_id { s with status := status } },
     true)

/-- `ServerRegistry.register_session`: first stores the session under its id,
then appends the id to `_server_sessions[session.server_id]`. When that key
is absent the append raises `KeyError`, which the surrounding `try` catches
and turns into `False` — but the session assignment has already happened and
is not rolled back. No duplicate-session check is performed. -/
def register_session (reg : ServerRegistry) (session : SessionInfo) :
    ServerRegistry × Bool :=
  let sessions' := dictInsert reg.sessions session.session_id session
  match dictLookup reg.server_sessions session.server_id with
  | none => ({ reg with sessions := sessions' }, false)
  | some l =>
    ({ reg with
        sessions := sessions',
        server_sessions :=
          dictInsert reg.server_sessions session.server_id
            (l ++ [session.session_id]) },
     true)

/-- Load ratio `current_sessions / max_sessions` used as the balancer's sort
key, as an exact rational (written with `Rat.divInt`, which equals the field
division by `Rat.divInt_eq_div`). -/
def loadRatio (s : RuntimeServer) : ℚ :=
  Rat.divInt s.capacity.current_sessions s.capacity.max_sessions

/-- The `available_servers` list of `select_server`: the snapshot values
filtered to status `ONLINE`. -/
def onlineServers (reg : ServerRegistry) : List RuntimeServer :=
  (reg.servers.map Prod.snd).filter
    (fun s => decide (s.status = ServerStatus.online))

/-- Head of Python's stable sort by load ratio: the first element attaining
the minimal ratio, computed as a strict-minimum fold. -/
def minByRatio (h : RuntimeServer) (t : List RuntimeServer) : RuntimeServer :=
  t.foldl (fun best c => if loadRatio c < loadRatio best then c else best) h

/-- `LoadBalancer.select_server`: filters the snapshot to online servers,
returns `none` when the filter is empty, and otherwise sorts by load ratio
and returns the head. Computing the sort key divides by `max_sessions`, so
any online server with `max_sessions = 0` raises `ZeroDivisionError`
(modelled as `.error ()`); otherwise the head of the stable sort is the first
online server attaining the minimal ratio (`minByRatio`). -/
def select_server (reg : ServerRegistry) :
    Except Unit (Option RuntimeServer) :=
  match onlineServers reg with
  | [] => .ok none
  | h :: t =>
    if (h :: t).any (fun s => decide (s.capacity.max_sessions = 0)) then
      .error ()
    else
      .ok (some (minByRatio h t))

/-- The loop body of `_check_heartbeats` for one snapshotted server: skip it
when already `offline`, otherwise mark it offline through
`update_server_status` when `now - capacity.last_updated` exceeds the
timeout. -/
def heartbeat_step (now heartbeat_timeout : Int) (r : ServerRegistry)
    (server : RuntimeServer) : ServerRegistry :=
  if server.status = ServerStatus.offline then r
  else if now - server.capacity.last_updated > heartbeat_timeout then
    (update_server_status r server.server_id ServerStatus.offline).1
  else r

/-- One heartbeat sweep, `ProxyServer._check_heartbeats`: snapshot the server
list, then run `heartbeat_step` over it against the registry. -/
def check_heartbeats (now heartbeat_timeout : Int) (reg : ServerRegistry) :
    ServerRegistry :=
  (reg.servers.map Prod.snd).foldl (heartbeat_step now heartbeat_timeout) reg

/-- The keyword arguments `proxy_request` passes to the `SessionInfo`
constructor when it registers a binding after balancer selection. The code
passes the raw header value, so the `session_id` argument is `Option String`:
`none` models Python `None` flowing into the required string field. -/
structure SessionRegAttempt where
  session_id : Option String
  server_id : String
deriving DecidableEq, Repr

/-- Outcome of the routing phase of `ProxyServer.proxy_request`. -/
inductive RouteOutcome where
  /-- An affinity binding resolved to a server; no registration happens. -/
  | affinity (srv : RuntimeServer)
  /-- The balancer chose a server and a session registration was attempted
  with the given constructor arguments. -/
  | balanced (srv : RuntimeServer) (attempt : SessionRegAttempt)
  /-- The balancer returned nothing: HTTP 503. -/
  | noCapacity
  /-- The balancer raised (`ZeroDivisionError`), caught as HTTP 500. -/
  | balancerError
deriving DecidableEq, Repr

/-- Routing phase of `ProxyServer.proxy_request` (lines 242-261): read the
`session_id` header (`if session_id:` — the empty string is falsy), resolve
the affinity binding without checking the bound server's status, and fall
back to the balancer, registering a binding built from the raw header value
when the balancer chose the server. -/
def proxy_request (reg : ServerRegistry) (header : Option String) :
    RouteOutcome :=
  let affinityTarget : Option RuntimeServer :=
    match header with
    | none => none
    | some sid =>
      if sid = "" then none
      else
        match dictLookup reg.sessions sid with
        | none => none
        | some sess => dictLookup reg.servers sess.server_id
  match affinityTarget with
  | some srv => .affinity srv
  | none =>
    match select_server reg with
    | .error _ => .balancerError
    | .ok none => .noCapacity
    | .ok (some srv) =>
      .balanced srv { session_id := header, server_id := srv.server_id }

/-- `ProxyServer.handle_heartbeat(server_id, runtime_server)`: the registry
lookup and the auto-registration use the body's `runtime_server.server_id`,
the stored server's capacity is overwritten in place, but the
offline-to-online transition calls `update_server_status` with the **path**
parameter `server_id`. -/
def handle_heartbeat (reg : ServerRegistry) (server_id : String)
    (runtime_server : RuntimeServer) : ServerRegistry :=
  match dictLookup reg.servers runtime_server.server_id with
  | none => (register_server reg runtime_server).1
  | some s =>
    let reg' :=
      { reg with
          servers := dictInsert reg.servers runtime_server.server_id
            { s with capacity := runtime_server.capacity } }
    if s.status = ServerStatus.offline then
      (update_server_status reg' server_id ServerStatus.online).1
    else reg'

/-! ### Concrete inputs used by witnesses and counterexamples -/

/-- Capacity literal for concrete inputs. -/
def mkCapacity (maxS cur lastUpd : Int) : ServerCapacity :=
  { max_sessions := maxS, current_sessions := cur, cpu_usage := 0,
    memory_usage := 0, last_updated := lastUpd }

/-- Server literal for concrete inputs. -/
def mkServer (id : String) (st : ServerStatus) (maxS cur lastUpd : Int) :
    RuntimeServer :=
  { server_id := id, host := "h", port := 8000, status := st,
    capacity := mkCapacity maxS cur lastUpd, metadata := [] }

/-- Session literal for concrete inputs. -/
def mkSession (sid srv : String) : SessionInfo :=
  { session_id := sid, server_id := srv, created_at := 0, last_active := 0,
    metadata := [] }

/-- An offline server `K` holding session `s1`, next to an online server `A`. -/
def srvK_offline : RuntimeServer := mkServer "K" ServerStatus.offline 10 0 0

/-- The online alternative server in `regC1`. -/
def srvA_online : RuntimeServer := mkServer "A" ServerStatus.online 10 0 0

/-- Registry where session `s1` is bound to the offline server `K` while
server `A` is online. -/
def regC1 : ServerRegistry :=
  { servers := [("K", srvK_offline), ("A", srvA_online)],
    sessions := [("s1", mkSession "s1" "K")],
    server_sessions := [("K", ["s1"]), ("A", [])] }

/-- Registry with server `K` registered and a non-empty session index. -/
def regC2 : ServerRegistry :=
  { servers := [("K", mkServer "K" ServerStatus.online 10 1 0)],
    sessions := [("s1", mkSession "s1" "K")],
    server_sessions := [("K", ["s1"])] }

/-- Re-registration payload for server `K` with fresh capacity and status. -/
def srvC2 : RuntimeServer := mkServer "K" ServerStatus.busy 5 2 7

/-- The empty registry. -/
def regC3 : ServerRegistry :=
  { servers := [], sessions := [], server_sessions := [] }

/-- A session payload that names a server id absent from the server table. -/
def sessC3 : SessionInfo := mkSession "s1" "B"

/-- Registry whose single online server advertises `max_sessions = 0`. -/
def regC4 : ServerRegistry :=
  { servers := [("Z", mkServer "Z" ServerStatus.online 0 0 0)],
    sessions := [],
    server_sessions := [("Z", [])] }

/-- Registry with an existing session `s1` bound to server `K`. -/
def regC5 : ServerRegistry :=
  { servers := [("K", mkServer "K" ServerStatus.online 10 1 0)],
    sessions := [("s1", mkSession "s1" "K")],
    server_sessions := [("K", ["s1"])] }

/-- A second payload reusing the already-registered session id `s1`. -/
def sessC5 : SessionInfo :=
  { mkSession "s1" "K" with created_at := 5 }

/-- Online server `A` at load 5/10. -/
def srvA_C6 : RuntimeServer := mkServer "A" ServerStatus.online 10 5 0

/-- Online server `B` at load 2/10, the least loaded. -/
def srvB_C6 : RuntimeServer := mkServer "B" ServerStatus.online 10 2 0

/-- Registry with two online servers at different load ratios. -/
def regC6 : ServerRegistry :=
  { servers := [("A", srvA_C6), ("B", srvB_C6)],
    sessions := [],
    server_sessions := [("A", []), ("B", [])] }

/-- An inconsistent (yet reachable) registry: session `s1` is bound to server
`K` but the session index of `K` is empty, as after a re-registration of `K`. -/
def regC7x : ServerRegistry :=
  { servers := [("K", mkServer "K" ServerStatus.online 10 1 0)],
    sessions := [("s1", mkSession "s1" "K")],
    server_sessions := [("K", [])] }

/-- A consistent registry with two servers and three indexed sessions. -/
def regC7w : ServerRegistry :=
  { servers := [("K", mkServer "K" ServerStatus.online 10 2 0),
                ("L", mkServer "L" ServerStatus.online 10 1 0)],
    sessions := [("s1", mkSession "s1" "K"), ("s2", mkSession "s2" "K"),
                 ("s3", mkSession "s3" "L")],
    server_sessions := [("K", ["s1", "s2"]), ("L", ["s3"])] }

/-- Registry for a heartbeat sweep at `now = 100`, `timeout = 60`: server `A`
is online and stale, `B` is online and fresh, `C` is already offline. -/
def regC8 : ServerRegistry :=
  { servers := [("A", mkServer "A" ServerStatus.online 10 0 0),
                ("B", mkServer "B" ServerStatus.online 10 0 90),
                ("C", mkServer "C" ServerStatus.offline 10 0 0)],
    sessions := [],
    server_sessions := [("A", []), ("B", []), ("C", [])] }

/-- A stored server `B` that is currently offline. -/
def srvB_C9 : RuntimeServer := mkServer "B" ServerStatus.offline 10 0 0

/-- Registry holding only the offline server `B`. -/
def regC9 : ServerRegistry :=
  { servers := [("B", srvB_C9)],
    sessions := [],
    server_sessions := [("B", [])] }

/-- Heartbeat body whose `server_id` is `B`, carrying fresh capacity. -/
def bodyC9 : RuntimeServer := mkServer "B" ServerStatus.online 10 3 50

/-- The only (online) server of `regC10`. -/
def srvD_C10 : RuntimeServer := mkServer "D" ServerStatus.online 10 0 0

/-- Registry with a single online server and no sessions. -/
def regC10 : ServerRegistry :=
  { servers := [("D", srvD_C10)],
    sessions := [],
    server_sessions := [("D", [])] }

/-! ### Dictionary lemmas -/

theorem dictLookup_dictInsert_self {β : Type} (l : List (String × β))
    (k : String) (v : β) : dictLookup (dictInsert l k v) k = some v := by
  induction l with
  | nil => simp [dictInsert, dictLookup]
  | cons p t ih =>
    obtain ⟨k', v'⟩ := p
    by_cases h : k' = k
    · simp [dictInsert, h, dictLookup]
    · simp [dictInsert, h, dictLookup, ih]

theorem dictLookup_dictInsert_ne {β : Type} (l : List (String × β))
    {k k' : String} (v : β) (h : k' ≠ k) :
    dictLookup (dictInsert l k v) k' = dictLookup l k' := by
  induction l with
  | nil => simp [dictInsert, dictLookup, Ne.symm h]
  | cons p t ih =>
    obtain ⟨a, b⟩ := p
    by_cases ha : a = k
    · subst ha
      simp [dictInsert, dictLookup, Ne.symm h]
    · simp [dictInsert, ha, dictLookup, ih]

theorem dictLookup_eq_none_of_not_mem_keys {β : Type} {l : List (String × β)}
    {k : String} (h : k ∉ l.map Prod.fst) : dictLookup l k = none := by
  induction l with
  | nil => rfl
  | cons p t ih =>
    obtain ⟨a, b⟩ := p
    simp only [List.map_cons, List.mem_cons, not_or] at h
    simp [dictLookup, Ne.symm h.1, ih h.2]

theorem dictLookup_dictErase_ne {β : Type} (l : List (String × β))
    {k k' : String} (h : k' ≠ k) :
    dictLookup (dictErase l k) k' = dictLookup l k' := by
  induction l with
  | nil => rfl
  | cons p t ih =>
    obtain ⟨a, b⟩ := p
    by_cases ha : a = k
    · subst ha
      simp [dictErase, dictLookup, Ne.symm h]
    · simp [dictErase, ha, dictLookup, ih]

theorem dictLookup_dictErase_self {β : Type} {l : List (String × β)}
    {k : String} (h : NodupKeys l) : dictLookup (dictErase l k) k = none := by
  induction l with
  | nil => rfl
  | cons p t ih =>
    obtain ⟨a, b⟩ := p
    obtain ⟨ha, ht⟩ := List.nodup_cons.mp h
    by_cases hak : a = k
    · subst hak
      simpa [dictErase] using dictLookup_eq_none_of_not_mem_keys ha
    · simp [dictErase, hak, dictLookup, ih ht]

theorem dictErase_sublist {β : Type} (l : List (String × β)) (k : String) :
    (dictErase l k).Sublist l := by
  induction l with
  | nil => simp [dictErase]
  | cons p t ih =>
    obtain ⟨a, b⟩ := p
    by_cases ha : a = k
    · simp only [dictErase, if_pos ha]
      exact List.sublist_cons_self (a, b) t
    · simp only [dictErase, if_neg ha]
      exact ih.cons₂ (a, b)

theorem mem_of_mem_dictErase {β : Type} {l : List (String × β)} {k : String}
    {p : String × β} (h : p ∈ dictErase l k) : p ∈ l :=
  (dictErase_sublist l k).mem h

theorem nodupKeys_dictErase {β : Type} {l : List (String × β)} (k : String)
    (h : NodupKeys l) : NodupKeys (dictErase l k) :=
  ((dictErase_sublist l k).map Prod.fst).nodup h

theorem key_ne_of_mem_dictErase {β : Type} {l : List (String × β)}
    {k : String} (h : NodupKeys l) :
    ∀ p ∈ dictErase l k, p.1 ≠ k := by
  induction l with
  | nil => intro p hp; cases hp
  | cons q t ih =>
    obtain ⟨a, b⟩ := q
    obtain ⟨ha, ht⟩ := List.nodup_cons.mp h
    intro p hp
    by_cases hak : a = k
    · subst hak
      simp only [dictErase, if_pos rfl] at hp
      intro hk
      exact ha (hk ▸ (List.mem_map.mpr ⟨p, hp, rfl⟩))
    · simp only [dictErase, if_neg hak] at hp
      rcases List.mem_cons.mp hp with hp | hp
      · subst hp; exact hak
      · exact ih ht p hp

theorem dictLookup_eq_some_of_mem {β : Type} {l : List (String × β)}
    {p : String × β} (hn : NodupKeys l) (h : p ∈ l) :
    dictLookup l p.1 = some p.2 := by
  induction l with
  | nil => cases h
  | cons q t ih =>
    obtain ⟨a, b⟩ := q
    obtain ⟨ha, ht⟩ := List.nodup_cons.mp hn
    rcases List.mem_cons.mp h with hp | hp
    · subst hp; simp [dictLookup]
    · have hak : a ≠ p.1 := by
        intro hk
        exact ha (hk ▸ (List.mem_map.mpr ⟨p, hp, rfl⟩))
      simp [dictLookup, hak, ih ht hp]

theorem mem_of_dictLookup_eq_some {β : Type} {l : List (String × β)}
    {k : String} {v : β} (h : dictLookup l k = some v) : (k, v) ∈ l := by
  induction l with
  | nil => cases h
  | cons q t ih =>
    obtain ⟨a, b⟩ := q
    by_cases hak : a = k
    · subst hak
      simp [dictLookup] at h
      subst h; exact List.mem_cons_self _ _
    · simp only [dictLookup, if_neg hak] at h
      exact List.mem_cons_of_mem _ (ih h)

/-! ### `eraseAll` lemmas -/

theorem eraseAll_nil {β : Type} (m : List (String × β)) : eraseAll m [] = m := rfl

theorem eraseAll_cons {β : Type} (m : List (String × β)) (sid : String)
    (ids : List String) :
    eraseAll m (sid :: ids) =
      eraseAll (if (dictLookup m sid).isSome then dictErase m sid else m) ids := rfl

theorem dictErase_of_dictLookup_none {β : Type} {m : List (String × β)}
    {sid : String} (h : dictLookup m sid = none) : dictErase m sid = m := by
  induction m with
  | nil => rfl
  | cons p t ih =>
    obtain ⟨a, b⟩ := p
    by_cases hab : a = sid
    · subst hab; simp [dictLookup] at h
    · simp only [dictLookup, if_neg hab] at h
      simp [dictErase, hab, ih h]

theorem eraseAll_step {β : Type} (m : List (String × β)) (sid : String) :
    (if (dictLookup m sid).isSome then dictErase m sid else m) = dictErase m sid := by
  by_cases h : (dictLookup m sid).isSome
  · simp [h]
  · have hnone : dictLookup m sid = none := by
      cases hl : dictLookup m sid with
      | none => rfl
      | some v => rw [hl] at h; simp at h
    simp [h, dictErase_of_dictLookup_none hnone]

theorem eraseAll_eq_foldl_erase {β : Type} (m : List (String × β))
    (ids : List String) :
    eraseAll m ids = ids.foldl (fun m sid => dictErase m sid) m := by
  induction ids generalizing m with
  | nil => rfl
  | cons sid ids ih =>
    rw [eraseAll_cons, eraseAll_step, ih, List.foldl_cons]

theorem mem_of_mem_eraseAll {β : Type} {m : List (String × β)}
    {ids : List String} {p : String × β} (h : p ∈ eraseAll m ids) : p ∈ m := by
  rw [eraseAll_eq_foldl_erase] at h
  induction ids generalizing m with
  | nil => exact h
  | cons sid ids ih =>
    rw [List.foldl_cons] at h
    exact mem_of_mem_dictErase (ih h)

theorem nodupKeys_eraseAll {β : Type} {m : List (String × β)}
    (ids : List String) (h : NodupKeys m) : NodupKeys (eraseAll m ids) := by
  rw [eraseAll_eq_foldl_erase]
  induction ids generalizing m with
  | nil => exact h
  | cons sid ids ih =>
    rw [List.foldl_cons]
    exact ih (nodupKeys_dictErase sid h)

theorem dictLookup_eraseAll_of_not_mem {β : Type} {m : List (String × β)}
    {ids : List String} {k : String} (h : k ∉ ids) :
    dictLookup (eraseAll m ids) k = dictLookup m k := by
  rw [eraseAll_eq_foldl_erase]
  induction ids generalizing m with
  | nil => rfl
  | cons sid ids ih =>
    simp only [List.mem_cons, not_or] at h
    rw [List.foldl_cons, ih h.2, dictLookup_dictErase_ne _ h.1]

theorem not_mem_keys_of_dictLookup_eq_none {β : Type} {l : List (String × β)}
    {k : String} (h : dictLookup l k = none) : k ∉ l.map Prod.fst := by
  induction l with
  | nil => simp
  | cons p t ih =>
    obtain ⟨a, b⟩ := p
    by_cases hak : a = k
    · subst hak; simp [dictLookup] at h
    · simp only [dictLookup, if_neg hak] at h
      simp only [List.map_cons, List.mem_cons, not_or]
      exact ⟨Ne.symm hak, ih h⟩

theorem dictLookup_dictErase_none {β : Type} {m : List (String × β)}
    (sid : String) {k : String} (h : dictLookup m k = none) :
    dictLookup (dictErase m sid) k = none := by
  apply dictLookup_eq_none_of_not_mem_keys
  intro hmem
  exact not_mem_keys_of_dictLookup_eq_none h
    (((dictErase_sublist m sid).map Prod.fst).subset hmem)

theorem dictLookup_eraseAll_none {β : Type} {m : List (String × β)}
    (ids : List String) {k : String} (h : dictLookup m k = none) :
    dictLookup (eraseAll m ids) k = none := by
  rw [eraseAll_eq_foldl_erase]
  induction ids generalizing m with
  | nil => exact h
  | cons sid ids ih =>
    rw [List.foldl_cons]
    exact ih (dictLookup_dictErase_none sid h)

theorem dictLookup_eraseAll_of_mem {β : Type} {m : List (String × β)}
    {ids : List String} {k : String} (hk : k ∈ ids) (hn : NodupKeys m) :
    dictLookup (eraseAll m ids) k = none := by
  rw [eraseAll_eq_foldl_erase]
  induction ids generalizing m with
  | nil => cases hk
  | cons sid ids ih =>
    rw [List.foldl_cons]
    by_cases hs : k = sid
    · subst hs
      have h1 : dictLookup (dictErase m k) k = none := dictLookup_dictErase_self hn
      have := dictLookup_eraseAll_none (m := dictErase m k) ids h1
      rwa [eraseAll_eq_foldl_erase] at this
    · exact ih (List.mem_of_ne_of_mem hs hk) (nodupKeys_dictErase sid hn)

/-! ### Balancer lemmas -/

theorem minByRatio_mem (h : RuntimeServer) (t : List RuntimeServer) :
    minByRatio h t ∈ h :: t := by
  induction t generalizing h with
  | nil => simp [minByRatio]
  | cons c t ih =>
    unfold minByRatio
    rw [List.foldl_cons]
    by_cases hc : loadRatio c < loadRatio h
    · simp only [if_pos hc]
      have := ih c
      simp only [List.mem_cons] at this ⊢
      tauto
    · simp only [if_neg hc]
      have := ih h
      simp only [List.mem_cons] at this ⊢
      tauto

theorem minByRatio_le (h : RuntimeServer) (t : List RuntimeServer) :
    ∀ x ∈ h :: t, loadRatio (minByRatio h t) ≤ loadRatio x := by
  induction t generalizing h with
  | nil =>
    intro x hx
    simp only [List.mem_cons, List.not_mem_nil, or_false] at hx
    subst hx
    simp [minByRatio]
  | cons c t ih =>
    have hstep : minByRatio h (c :: t) =
        minByRatio (if loadRatio c < loadRatio h then c else h) t := by
      unfold minByRatio
      rw [List.foldl_cons]
    have hble : loadRatio (minByRatio (if loadRatio c < loadRatio h then c else h) t)
        ≤ loadRatio (if loadRatio c < loadRatio h then c else h) :=
      ih _ _ (List.mem_cons_self _ _)
    have hmin_h : loadRatio (minByRatio h (c :: t)) ≤ loadRatio h := by
      rw [hstep]
      by_cases hc : loadRatio c < loadRatio h
      · rw [if_pos hc] at hble ⊢
        exact le_trans hble (le_of_lt hc)
      · rw [if_neg hc] at hble ⊢
        exact hble
    have hmin_c : loadRatio (minByRatio h (c :: t)) ≤ loadRatio c := by
      rw [hstep]
      by_cases hc : loadRatio c < loadRatio h
      · rw [if_pos hc] at hble ⊢
        exact hble
      · rw [if_neg hc] at hble ⊢
        exact le_trans hble (le_of_not_lt hc)
    intro x hx
    rcases List.mem_cons.mp hx with hx | hx
    · rw [hx]; exact hmin_h
    rcases List.mem_cons.mp hx with hx | hx
    · rw [hx]; exact hmin_c
    · rw [hstep]
      exact ih _ _ (List.mem_cons_of_mem _ hx)

theorem mem_onlineServers {reg : ServerRegistry} {s : RuntimeServer} :
    s ∈ onlineServers reg ↔
      s ∈ reg.servers.map Prod.snd ∧ s.status = ServerStatus.online := by
  unfold onlineServers
  rw [List.mem_filter]
  simp

theorem onlineServers_eq_nil {reg : ServerRegistry} :
    onlineServers reg = [] ↔
      ∀ p ∈ reg.servers, p.2.status ≠ ServerStatus.online := by
  unfold onlineServers
  rw [List.filter_eq_nil_iff]
  constructor
  · intro h p hp hst
    exact absurd (by simpa using hst) (by simpa using h p.2 (List.mem_map.mpr ⟨p, hp, rfl⟩))
  · intro h s hs
    rcases List.mem_map.mp hs with ⟨p, hp, rfl⟩
    simpa using h p hp

/-! ### Heartbeat sweep lemmas -/

theorem dictLookup_update_server_status_ne (reg : ServerRegistry) (id : String)
    (st : ServerStatus) {k : String} (h : k ≠ id) :
    dictLookup (update_server_status reg id st).1.servers k =
      dictLookup reg.servers k := by
  cases hl : dictLookup reg.servers id with
  | none => simp [update_server_status, hl]
  | some s => simp [update_server_status, hl, dictLookup_dictInsert_ne _ _ h]

theorem dictLookup_update_server_status_self (reg : ServerRegistry)
    (id : String) (st : ServerStatus) {s : RuntimeServer}
    (hl : dictLookup reg.servers id = some s) :
    dictLookup (update_server_status reg id st).1.servers id =
      some { s with status := st } := by
  simp [update_server_status, hl, dictLookup_dictInsert_self]

theorem dictLookup_heartbeat_step_ne (now timeout : Int) (r : ServerRegistry)
    (server : RuntimeServer) {k : String} (h : k ≠ server.server_id) :
    dictLookup (heartbeat_step now timeout r server).servers k =
      dictLookup r.servers k := by
  unfold heartbeat_step
  by_cases h1 : server.status = ServerStatus.offline
  · rw [if_pos h1]
  · rw [if_neg h1]
    by_cases h2 : now - server.capacity.last_updated > timeout
    · rw [if_pos h2]
      exact dictLookup_update_server_status_ne _ _ _ h
    · rw [if_neg h2]

theorem dictLookup_heartbeat_fold_ne (now timeout : Int)
    (vals : List RuntimeServer) (r : ServerRegistry) {k : String}
    (h : ∀ v ∈ vals, v.server_id ≠ k) :
    dictLookup (vals.foldl (heartbeat_step now timeout) r).servers k =
      dictLookup r.servers k := by
  induction vals generalizing r with
  | nil => rfl
  | cons v vs ih =>
    rw [List.foldl_cons,
      ih _ (fun u hu => h u (List.mem_cons_of_mem _ hu)),
      dictLookup_heartbeat_step_ne _ _ _ _
        (Ne.symm (h v (List.mem_cons_self _ _)))]

theorem dictLookup_heartbeat_step_self (now timeout : Int) (r : ServerRegistry)
    {server : RuntimeServer}
    (hl : dictLookup r.servers server.server_id = some server) :
    dictLookup (heartbeat_step now timeout r server).servers server.server_id =
      some (if server.status = ServerStatus.offline then server
        else if now - server.capacity.last_updated > timeout then
          { server with status := ServerStatus.offline }
        else server) := by
  unfold heartbeat_step
  by_cases h1 : server.status = ServerStatus.offline
  · rw [if_pos h1, if_pos h1]; exact hl
  · rw [if_neg h1, if_neg h1]
    by_cases h2 : now - server.capacity.last_updated > timeout
    · rw [if_pos h2, if_pos h2]
      exact dictLookup_update_server_status_self _ _ _ hl
    · rw [if_neg h2, if_neg h2]; exact hl

/-! ### Claims -/

/-- C1: the claim says a request whose `session_id` header is bound to an
offline server must not be routed to it by affinity and must fall through to
balancer selection. The code performs no status check on the bound server: at
this input session `s1` is bound to the offline server `K`, the balancer
would have returned the online server `A`, yet the router selects `K`. -/
theorem C1_offline_affinity :
    dictLookup regC1.sessions "s1" = some (mkSession "s1" "K") ∧
    dictLookup regC1.servers "K" = some srvK_offline ∧
    srvK_offline.status = ServerStatus.offline ∧
    select_server regC1 = Except.ok (some srvA_online) ∧
    proxy_request regC1 (some "s1") = RouteOutcome.affinity srvK_offline := by
  decide

/-- C2: the claim says re-registering an existing server id `K` leaves the
existing session index for `K` unchanged. The code unconditionally assigns a
fresh empty list: at this input `K` is re-registered while its index holds
`["s1"]`, the call succeeds and overwrites the entry, but the index is reset
to `[]`. -/
theorem C2_index_reset :
    dictLookup regC2.server_sessions "K" = some ["s1"] ∧
    (register_server regC2 srvC2).2 = true ∧
    dictLookup (register_server regC2 srvC2).1.servers "K" = some srvC2 ∧
    dictLookup (register_server regC2 srvC2).1.server_sessions "K" = some [] := by
  decide

/-- C3: the claim says registering a session whose `server_id` is unknown
fails and leaves the registry unchanged. The code stores the session in
`_sessions` before the index append raises `KeyError`: at this input, against
the empty registry, the call returns failure but the dangling session `s1`
remains in the session table. -/
theorem C3_dangling_session :
    (register_session regC3 sessC3).2 = false ∧
    (register_session regC3 sessC3).1 ≠ regC3 ∧
    dictLookup (register_session regC3 sessC3).1.sessions "s1" = some sessC3 ∧
    dictLookup (register_session regC3 sessC3).1.servers "B" = none := by
  decide

/-- C4: the claim says a server with `max_sessions = 0` is ineligible and no
division by zero occurs. The code computes `current_sessions / max_sessions`
for every online server: at this input the single online server advertises
`max_sessions = 0` and the balancer raises `ZeroDivisionError` (the `.error`
outcome) instead of skipping it. -/
theorem C4_division_by_zero :
    (∃ p ∈ regC4.servers, p.2.status = ServerStatus.online ∧
      p.2.capacity.max_sessions = 0) ∧
    select_server regC4 = Except.error () := by
  decide

/-- C5: the claim says registering a session whose id already exists fails
with a duplicate-session error and does not overwrite the stored session or
append its id again. The code performs no duplicate check: at this input the
call succeeds, replaces the stored session `s1`, and appends `s1` to server
`K`'s index a second time. -/
theorem C5_duplicate_overwritten :
    dictLookup regC5.sessions "s1" = some (mkSession "s1" "K") ∧
    sessC5.session_id = "s1" ∧
    (register_session regC5 sessC5).2 = true ∧
    dictLookup (register_session regC5 sessC5).1.sessions "s1" = some sessC5 ∧
    dictLookup (register_session regC5 sessC5).1.server_sessions "K" =
      some ["s1", "s1"] := by
  decide

/-- C10: on a request with no `session_id` header for which the balancer
selects a server, the router registers a binding built from the raw header
value: the `session_id` argument passed to the `SessionInfo` constructor is
`None` (no fresh identifier is synthesized), and the `server_id` is the
chosen server's. -/
theorem C10_none_session_registered (reg : ServerRegistry)
    (srv : RuntimeServer) (h : select_server reg = Except.ok (some srv)) :
    proxy_request reg none =
      RouteOutcome.balanced srv
        { session_id := none, server_id := srv.server_id } := by
  simp [proxy_request, h]

/-- C10 witness: at `regC10` the balancer selects server `D` and the router
attempts a registration with `session_id = none`. -/
theorem C10_witness :
    select_server regC10 = Except.ok (some srvD_C10) ∧
    proxy_request regC10 none =
      RouteOutcome.balanced srvD_C10
        { session_id := none, server_id := srvD_C10.server_id } :=
  ⟨by decide, C10_none_session_registered regC10 srvD_C10 (by decide)⟩

/-- Helper: `loadRatio` is the true division of the claim. -/
theorem loadRatio_eq_div (s : RuntimeServer) :
    loadRatio s =
      (s.capacity.current_sessions : ℚ) / (s.capacity.max_sessions : ℚ) :=
  Rat.divInt_eq_div _ _

/-- C6: `select_server` returns nothing exactly when no server is online, and
any server it returns is online with a load ratio
`current_sessions / max_sessions` minimal among all online servers (the
`ZeroDivisionError` outcome is `.error`, which is neither of the two). -/
theorem C6_select_server_minimal (reg : ServerRegistry) :
    (select_server reg = Except.ok none ↔
      ∀ p ∈ reg.servers, p.2.status ≠ ServerStatus.online) ∧
    ∀ s, select_server reg = Except.ok (some s) →
      s.status = ServerStatus.online ∧
      ∀ p ∈ reg.servers, p.2.status = ServerStatus.online →
        (s.capacity.current_sessions : ℚ) / (s.capacity.max_sessions : ℚ) ≤
          (p.2.capacity.current_sessions : ℚ) / (p.2.capacity.max_sessions : ℚ) := by
  constructor
  · cases hav : onlineServers reg with
    | nil =>
      simp only [select_server, hav]
      exact ⟨fun _ => onlineServers_eq_nil.mp hav, fun _ => trivial⟩
    | cons h t =>
      have hh : h ∈ onlineServers reg := by rw [hav]; exact List.mem_cons_self _ _
      obtain ⟨hmem, hst⟩ := mem_onlineServers.mp hh
      obtain ⟨p, hp, hps⟩ := List.mem_map.mp hmem
      constructor
      · intro habs
        exfalso
        simp only [select_server, hav] at habs
        by_cases hz : ((h :: t).any fun s => decide (s.capacity.max_sessions = 0))
        · rw [if_pos hz] at habs; cases habs
        · rw [if_neg hz] at habs; simp at habs
      · intro hall
        exact absurd (hps ▸ hst) (by simpa using hall p hp)
  · intro s hs
    cases hav : onlineServers reg with
    | nil => simp only [select_server, hav] at hs; simp at hs
    | cons h t =>
      simp only [select_server, hav] at hs
      by_cases hz : ((h :: t).any fun s => decide (s.capacity.max_sessions = 0))
      · rw [if_pos hz] at hs; cases hs
      · rw [if_neg hz] at hs
        simp only [Except.ok.injEq, Option.some.injEq] at hs
        subst hs
        have hmm : minByRatio h t ∈ onlineServers reg := by
          rw [hav]; exact minByRatio_mem h t
        obtain ⟨_, hso⟩ := mem_onlineServers.mp hmm
        refine ⟨hso, ?_⟩
        intro p hp hpon
        have hpo : p.2 ∈ onlineServers reg :=
          mem_onlineServers.mpr ⟨List.mem_map.mpr ⟨p, hp, rfl⟩, hpon⟩
        rw [hav] at hpo
        have hle := minByRatio_le h t p.2 hpo
        rw [loadRatio_eq_div, loadRatio_eq_div] at hle
        exact hle

/-- C6 witness: at `regC6` the balancer returns server `B`, which is online
and whose ratio 2/10 is below server `A`'s 5/10. -/
theorem C6_witness :
    select_server regC6 = Except.ok (some srvB_C6) ∧
    srvB_C6.status = ServerStatus.online ∧
    (srvB_C6.capacity.current_sessions : ℚ) / (srvB_C6.capacity.max_sessions : ℚ) ≤
      (srvA_C6.capacity.current_sessions : ℚ) / (srvA_C6.capacity.max_sessions : ℚ) :=
  ⟨by decide,
   ((C6_select_server_minimal regC6).2 srvB_C6 (by decide)).1,
   ((C6_select_server_minimal regC6).2 srvB_C6 (by decide)).2
     ("A", srvA_C6) (by decide) (by decide)⟩

/-- C8: in a heartbeat sweep over a registry with distinct, consistent server
keys, a server already `offline` is left untouched, any other server whose
`now - capacity.last_updated` exceeds `heartbeat_timeout` has its status set
to `offline`, and any other server within the timeout keeps its entry
unchanged. -/
theorem C8_heartbeat_sweep (now timeout : Int) (reg : ServerRegistry)
    (hnodup : NodupKeys reg.servers)
    (hkey : ∀ p ∈ reg.servers, p.2.server_id = p.1) :
    ∀ p ∈ reg.servers,
      (p.2.status = ServerStatus.offline →
        dictLookup (check_heartbeats now timeout reg).servers p.1 = some p.2) ∧
      (p.2.status ≠ ServerStatus.offline →
        now - p.2.capacity.last_updated > timeout →
        dictLookup (check_heartbeats now timeout reg).servers p.1 =
          some { p.2 with status := ServerStatus.offline }) ∧
      (p.2.status ≠ ServerStatus.offline →
        ¬(now - p.2.capacity.last_updated > timeout) →
        dictLookup (check_heartbeats now timeout reg).servers p.1 = some p.2) := by
  intro p hp
  obtain ⟨l1, l2, hsplit⟩ := List.append_of_mem hp
  have hkeysn : (l1.map Prod.fst ++ p.1 :: l2.map Prod.fst).Nodup := by
    have h0 := hnodup
    rw [hsplit] at h0
    simpa [NodupKeys] using h0
  have hp1 : p.1 ∉ l1.map Prod.fst := fun hmem =>
    (List.disjoint_of_nodup_append hkeysn) hmem (List.mem_cons_self _ _)
  have hp2 : p.1 ∉ l2.map Prod.fst :=
    (List.nodup_cons.mp (List.nodup_append.mp hkeysn).2.1).1
  have hlook : dictLookup reg.servers p.1 = some p.2 :=
    dictLookup_eq_some_of_mem hnodup hp
  have hid : p.2.server_id = p.1 := hkey p hp
  have hmain : dictLookup (check_heartbeats now timeout reg).servers p.1 =
      some (if p.2.status = ServerStatus.offline then p.2
        else if now - p.2.capacity.last_updated > timeout then
          { p.2 with status := ServerStatus.offline }
        else p.2) := by
    have hvals : reg.servers.map Prod.snd =
        l1.map Prod.snd ++ p.2 :: l2.map Prod.snd := by
      rw [hsplit]; simp
    rw [check_heartbeats, hvals, List.foldl_append, List.foldl_cons]
    have hne1 : ∀ v ∈ l1.map Prod.snd, v.server_id ≠ p.1 := by
      intro v hv
      obtain ⟨q, hq, rfl⟩ := List.mem_map.mp hv
      have hql : q ∈ reg.servers := by
        rw [hsplit]
        exact List.mem_append_left _ hq
      rw [hkey q hql]
      intro he
      exact hp1 (he ▸ List.mem_map.mpr ⟨q, hq, rfl⟩)
    have hne2 : ∀ v ∈ l2.map Prod.snd, v.server_id ≠ p.1 := by
      intro v hv
      obtain ⟨q, hq, rfl⟩ := List.mem_map.mp hv
      have hql : q ∈ reg.servers := by
        rw [hsplit]
        exact List.mem_append_right _ (List.mem_cons_of_mem _ hq)
      rw [hkey q hql]
      intro he
      exact hp2 (he ▸ List.mem_map.mpr ⟨q, hq, rfl⟩)
    have hfr1 : dictLookup ((l1.map Prod.snd).foldl
        (heartbeat_step now timeout) reg).servers p.1 = some p.2 := by
      rw [dictLookup_heartbeat_fold_ne _ _ _ _ hne1]
      exact hlook
    have hl2 : dictLookup ((l1.map Prod.snd).foldl (heartbeat_step now timeout)
        reg).servers p.2.server_id = some p.2 := by
      rw [hid]; exact hfr1
    have hstep := dictLookup_heartbeat_step_self now timeout
      ((l1.map Prod.snd).foldl (heartbeat_step now timeout) reg) hl2
    rw [dictLookup_heartbeat_fold_ne _ _ _ _ hne2, ← hid]
    exact hstep
  refine ⟨?_, ?_, ?_⟩
  · intro hoff
    rw [hmain, if_pos hoff]
  · intro hnoff hstale
    rw [hmain, if_neg hnoff, if_pos hstale]
  · intro hnoff hfresh
    rw [hmain, if_neg hnoff, if_neg hfresh]

/-- C8 witness: sweeping `regC8` at `now = 100` with timeout 60 marks the
stale server `A` offline, keeps the fresh server `B` online, and skips the
already-offline server `C`. -/
theorem C8_witness :
    NodupKeys regC8.servers ∧ (∀ p ∈ regC8.servers, p.2.server_id = p.1) ∧
    dictLookup (check_heartbeats 100 60 regC8).servers "A" =
      some { mkServer "A" ServerStatus.online 10 0 0 with
        status := ServerStatus.offline } ∧
    dictLookup (check_heartbeats 100 60 regC8).servers "B" =
      some (mkServer "B" ServerStatus.online 10 0 90) ∧
    dictLookup (check_heartbeats 100 60 regC8).servers "C" =
      some (mkServer "C" ServerStatus.offline 10 0 0) :=
  ⟨by decide, by decide,
   ((C8_heartbeat_sweep 100 60 regC8 (by decide) (by decide)
      ("A", mkServer "A" ServerStatus.online 10 0 0) (by decide)).2.1
      (by decide) (by decide)),
   ((C8_heartbeat_sweep 100 60 regC8 (by decide) (by decide)
      ("B", mkServer "B" ServerStatus.online 10 0 90) (by decide)).2.2
      (by decide) (by decide)),
   ((C8_heartbeat_sweep 100 60 regC8 (by decide) (by decide)
      ("C", mkServer "C" ServerStatus.offline 10 0 0) (by decide)).1
      (by decide))⟩

/-- C9 counterexample: the claim says that on a heartbeat whose body names a
stored offline server, that server is transitioned back to online. With path
parameter `"A"` and body id `"B"`, the stored offline server `B` gets its
capacity overwritten but stays offline, because the online transition is
keyed by the path parameter. -/
theorem C9_counterexample :
    dictLookup regC9.servers bodyC9.server_id = some srvB_C9 ∧
    srvB_C9.status = ServerStatus.offline ∧
    dictLookup (handle_heartbeat regC9 "A" bodyC9).servers "B" =
      some { srvB_C9 with capacity := bodyC9.capacity } ∧
    ({ srvB_C9 with capacity := bodyC9.capacity }).status ≠
      ServerStatus.online := by
  decide

/-- C9 (amended): if the body id `b.server_id` is unknown the server is
auto-registered from `b`; otherwise the stored server's capacity is
overwritten with `b.capacity` and, if the stored status was `offline`, the
online transition is applied to the path parameter `server_id`, so the
stored server is revived exactly when the path id equals `b.server_id`. -/
theorem C9_heartbeat_amended (reg : ServerRegistry) (server_id : String)
    (b : RuntimeServer) :
    (dictLookup reg.servers b.server_id = none →
      dictLookup (handle_heartbeat reg server_id b).servers b.server_id =
        some b) ∧
    ∀ s, dictLookup reg.servers b.server_id = some s →
      dictLookup (handle_heartbeat reg server_id b).servers b.server_id =
        some { s with
          capacity := b.capacity,
          status :=
            if s.status = ServerStatus.offline ∧ server_id = b.server_id
            then ServerStatus.online else s.status } := by
  constructor
  · intro hnone
    simp only [handle_heartbeat, hnone, register_server]
    exact dictLookup_dictInsert_self _ _ _
  · intro s hs
    simp only [handle_heartbeat, hs]
    by_cases hoff : s.status = ServerStatus.offline
    · simp only [if_pos hoff]
      by_cases hpid : server_id = b.server_id
      · subst hpid
        simp [update_server_status, dictLookup_dictInsert_self, hoff]
      · rw [dictLookup_update_server_status_ne _ _ _ (Ne.symm hpid)]
        simp [dictLookup_dictInsert_self, hoff, hpid]
    · simp only [if_neg hoff]
      simp [dictLookup_dictInsert_self, hoff]

/-- C9 witness: with matching path and body id `"B"`, the stored offline
server `B` has its capacity overwritten and is revived to online. -/
theorem C9_witness :
    dictLookup regC9.servers bodyC9.server_id = some srvB_C9 ∧
    dictLookup (handle_heartbeat regC9 "B" bodyC9).servers bodyC9.server_id =
      some { srvB_C9 with
        capacity := bodyC9.capacity,
        status :=
          if srvB_C9.status = ServerStatus.offline ∧ "B" = bodyC9.server_id
          then ServerStatus.online else srvB_C9.status } :=
  ⟨by decide, (C9_heartbeat_amended regC9 "B" bodyC9).2 srvB_C9 (by decide)⟩

/-- C7 counterexample: the claim's postcondition fails on an inconsistent
registry (reachable, e.g., by re-registering `K` while it holds a session):
session `s1` is bound to `K` but not indexed under it, so after
`unregister_server "K"` succeeds the session table still holds a session
whose `server_id` is `K`. -/
theorem C7_counterexample :
    (unregister_server regC7x "K").2 = true ∧
    dictLookup (unregister_server regC7x "K").1.servers "K" = none ∧
    dictLookup (unregister_server regC7x "K").1.sessions "s1" =
      some (mkSession "s1" "K") ∧
    (mkSession "s1" "K").server_id = "K" := by
  decide

/-- C7 (amended): on a registry satisfying the consistency invariant (unique
keys; every session indexed under its server; indexes only hold ids bound to
their key), `unregister_server K` fails and changes nothing when `K` is
absent; when `K` is present it succeeds, removes the server entry and the
index entry, and afterwards no session with `server_id = K` remains in the
session table or in any remaining index. -/
theorem C7_unregister_amended (reg : ServerRegistry) (K : String)
    (hnsrv : NodupKeys reg.servers)
    (hnsess : NodupKeys reg.sessions)
    (hnx : NodupKeys reg.server_sessions)
    (h1 : ∀ p ∈ reg.sessions,
      p.1 ∈ (dictLookup reg.server_sessions p.2.server_id).getD [])
    (h2 : ∀ q ∈ reg.server_sessions, ∀ sid ∈ q.2,
      (dictLookup reg.sessions sid).map SessionInfo.server_id = some q.1) :
    (dictLookup reg.servers K = none → unregister_server reg K = (reg, false)) ∧
    ∀ srv, dictLookup reg.servers K = some srv →
      (unregister_server reg K).2 = true ∧
      dictLookup (unregister_server reg K).1.servers K = none ∧
      dictLookup (unregister_server reg K).1.server_sessions K = none ∧
      (∀ p ∈ (unregister_server reg K).1.sessions, p.2.server_id ≠ K) ∧
      (∀ p ∈ reg.sessions, p.2.server_id = K →
        ∀ q ∈ (unregister_server reg K).1.server_sessions, p.1 ∉ q.2) := by
  constructor
  · intro hnone
    simp [unregister_server, hnone]
  · intro srv hsrv
    simp only [unregister_server, hsrv]
    refine ⟨trivial, ?_, ?_, ?_, ?_⟩
    · exact dictLookup_dictErase_self hnsrv
    · exact dictLookup_dictErase_self hnx
    · intro p hp hpk
      have hpm : p ∈ reg.sessions := mem_of_mem_eraseAll hp
      have hidx : p.1 ∈ (dictLookup reg.server_sessions p.2.server_id).getD [] :=
        h1 p hpm
      rw [hpk] at hidx
      have hnone2 : dictLookup (eraseAll reg.sessions
          ((dictLookup reg.server_sessions K).getD [])) p.1 = none :=
        dictLookup_eraseAll_of_mem hidx hnsess
      have hsome : dictLookup (eraseAll reg.sessions
          ((dictLookup reg.server_sessions K).getD [])) p.1 = some p.2 :=
        dictLookup_eq_some_of_mem (nodupKeys_eraseAll _ hnsess) hp
      rw [hnone2] at hsome
      cases hsome
    · intro p hpm hpk q hq hmem
      have hq' : q ∈ reg.server_sessions := mem_of_mem_dictErase hq
      have hqk : q.1 ≠ K := key_ne_of_mem_dictErase hnx q hq
      have hmap := h2 q hq' p.1 hmem
      have hlp : dictLookup reg.sessions p.1 = some p.2 :=
        dictLookup_eq_some_of_mem hnsess hpm
      rw [hlp] at hmap
      have heq : p.2.server_id = q.1 := by simpa using hmap
      exact hqk (heq ▸ hpk)

/-- C7 witness: at the consistent registry `regC7w`, unregistering `K`
succeeds, removes it, and leaves no session bound to `K`. -/
theorem C7_witness :
    dictLookup regC7w.servers "K" =
      some (mkServer "K" ServerStatus.online 10 2 0) ∧
    (unregister_server regC7w "K").2 = true ∧
    dictLookup (unregister_server regC7w "K").1.servers "K" = none ∧
    (∀ p ∈ (unregister_server regC7w "K").1.sessions, p.2.server_id ≠ "K") := by
  have h := (C7_unregister_amended regC7w "K" (by decide) (by decide)
    (by decide) (by decide) (by decide)).2
    (mkServer "K" ServerStatus.online 10 2 0) (by decide)
  exact ⟨by decide, h.1, h.2.1, h.2.2.2.1⟩
